import Mathlib

/-!
Shallow embedding of the RAG pipeline in `backend/rag_pipeline.py`.

Conventions of the embedding:
* External collaborators (embedding service, generation service, vector store,
  document loader, Python parser) are passed in as oracle arguments of type
  `Except PipeErr _` or functions returning such values; `.error` models the
  collaborator raising an exception, `.ok` a normal return.
* Distances and the derived confidence percentage are rationals (`ℚ`); the
  Python floats carry exact decimal values in all scenarios considered here.
* Chroma query results always wrap each field in a one-element outer list
  (one inner list per query embedding), so the truthiness tests
  `if results[...]` on the outer lists in the source are always true; the
  embedding keeps only the inner lists.
-/

/-- Exceptions raised by external collaborators (network, vector store,
syntax errors from `ast.parse`, ...). -/
inductive PipeErr where
  | serviceErr
  | parseErr
deriving DecidableEq

/-- An embedding vector as returned by `embed_query`. -/
abbrev Vec := List ℚ

/-- Metadata attached to each indexed chunk (rag_pipeline.py lines 82-87). -/
structure DocMeta where
  source : String
  chunk_id : Nat
  file_path : String
  file_type : String
deriving DecidableEq

/-- Identity of an indexed entry.  The source builds the id string
`f"[basename]_[i]"`; since the decimal digits of the index contain no
underscore, two id strings built this way are equal exactly when both the
basename and the index agree, so the pair is a faithful model of the id. -/
structure DocId where
  base : String
  idx : Nat
deriving DecidableEq

/-- An entry of the chroma collection: id, chunk text and metadata
(the stored embedding vector plays no role in any claim-relevant path). -/
structure Entry where
  id : DocId
  document : String
  metadata : DocMeta
deriving DecidableEq

/-- Modelled from the spec: the vector store is an external collaborator
(`chromadb`), whose code is not part of this repository; §6 specifies its
required contract as `upsert(id, embedding, text, metadata)` — insertion that
overwrites by id.  The first entry carrying the id is replaced in place;
a fresh id is appended at the end. -/
def upsert (e : Entry) : List Entry → List Entry
  | [] => [e]
  | x :: xs => if x.id = e.id then e :: xs else x :: upsert e xs

/-- Model of `os.path.basename`: the component after the last slash. -/
def basename (p : String) : String := (p.splitOn "/").getLastD p

/-- The ast-derived part of the structure dict built by
`_process_python_file` (classes, functions, imports); produced by the
external `ast` parser, so it arrives through the parse oracle. -/
structure AstInfo where
  classes : List String
  functions : List String
  imports : List String
deriving DecidableEq

/-- The full `code_structure` dict (rag_pipeline.py lines 108-113). -/
structure CodeStructure where
  classes : List String
  functions : List String
  imports : List String
  comments : List String
deriving DecidableEq

/-- A value of the `python_files` cache (rag_pipeline.py lines 134-138). -/
structure PyInfo where
  content : String
  code_structure : CodeStructure
  path : String
deriving DecidableEq

/-- `_extract_comments` (rag_pipeline.py lines 143-151): the stripped lines
that start with a hash mark, in source order. -/
def extract_comments (content : String) : List String :=
  ((content.splitOn "\n").map String.trim).filter (fun s => s.startsWith "#")

/-- Python dict assignment `d[k] = v` on an association list whose keys are
unique (as dict keys are): replace the binding if the key is present,
otherwise append it. -/
def setKey (k : String) (v : PyInfo) : List (String × PyInfo) → List (String × PyInfo)
  | [] => [(k, v)]
  | p :: ps => if p.1 = k then (k, v) :: ps else p :: setKey k v ps

/-- Python dict deletion `del d[k]`: every binding of the key is removed
(dict keys are unique, so this is the single binding when present). -/
def eraseKey (k : String) (m : List (String × PyInfo)) : List (String × PyInfo) :=
  m.filter (fun p => p.1 != k)

/-- `_process_python_file` (rag_pipeline.py lines 98-141): read the file
content, parse it with `ast.parse` (the oracle), and on success store the
extracted structure in the `python_files` cache keyed by basename; a parse
failure is swallowed and leaves the cache unchanged. -/
def process_python_file (pf : List (String × PyInfo)) (file_path content : String)
    (parse : Except PipeErr AstInfo) : List (String × PyInfo) :=
  match parse with
  | .error _ => pf
  | .ok t =>
      setKey (basename file_path)
        { content := content,
          code_structure :=
            { classes := t.classes, functions := t.functions,
              imports := t.imports, comments := extract_comments content },
          path := file_path } pf

/-- Process-wide mutable state of the pipeline: the chroma collection, the
`python_files` cache, and the set of filenames present in the documents
directory. -/
structure PipelineState where
  collection : List Entry
  python_files : List (String × PyInfo)
  fs : List String
deriving DecidableEq

/-- Model of Python `s.endswith(suffix)` on the underlying character lists
(UTF8 byte-position bookkeeping does not affect the result). -/
def strEnds (s suffix : String) : Bool := suffix.data.isSuffixOf s.data

/-- The entry built for chunk `i` of a file (rag_pipeline.py lines 79-89). -/
def mkEntry (file_path : String) (i : Nat) (chunk : String) : Entry :=
  { id := { base := basename file_path, idx := i },
    document := chunk,
    metadata :=
      { source := basename file_path, chunk_id := i, file_path := file_path,
        file_type := if strEnds file_path ".py" then "python" else "document" } }

/-- The per-chunk loop of `add_document` (rag_pipeline.py lines 76-89): embed
each chunk and insert it with id basename_i.  The first failing embedding
aborts the loop; entries already inserted in this run are kept (the source
has no rollback), and the flag records whether the loop completed. -/
def addChunks (file_path : String) (embed : String → Except PipeErr Vec) :
    List Entry → Nat → List String → Bool × List Entry
  | col, _, [] => (true, col)
  | col, i, c :: rest =>
    match embed c with
    | .error _ => (false, col)
    | .ok _v => addChunks file_path embed (upsert (mkEntry file_path i c) col) (i + 1) rest

/-- `add_document` (rag_pipeline.py lines 56-96).  The loader result, the
file content read by `_process_python_file`, the `ast.parse` outcome and the
per-chunk embedding outcomes are oracles; `chunks` is the output of the
external text splitter on the loaded sections.  A loader failure hits the
outer `except` before any state is touched; a Python file is cached before
chunk embedding starts; an embedding failure reports `false` and keeps all
state changes made so far. -/
def add_document (st : PipelineState) (file_path : String)
    (load : Except PipeErr (List String)) (content : String)
    (parse : Except PipeErr AstInfo) (chunks : List String)
    (embed : String → Except PipeErr Vec) : Bool × PipelineState :=
  match load with
  | .error _ => (false, st)
  | .ok _docs =>
    let pf := if strEnds file_path ".py" then
        process_python_file st.python_files file_path content parse
      else st.python_files
    let st1 : PipelineState := { st with python_files := pf }
    match addChunks file_path embed st1.collection 0 chunks with
    | (b, col) => (b, { st1 with collection := col })

/-- `delete_document` (rag_pipeline.py lines 419-448): collect the ids of the
entries whose metadata source equals the filename, delete those ids from the
collection, drop the filename from the `python_files` cache if present, and
remove the file from the documents directory if it exists.  No step of this
model raises, so the method returns `true`. -/
def delete_document (st : PipelineState) (filename : String) : Bool × PipelineState :=
  let ids_to_delete :=
    (st.collection.filter (fun e => e.metadata.source == filename)).map Entry.id
  let col := st.collection.filter (fun e => !(ids_to_delete.contains e.id))
  let pf := if st.python_files.any (fun p => p.1 == filename) then
      eraseKey filename st.python_files
    else st.python_files
  let fs2 := if st.fs.contains filename then st.fs.filter (fun s => s != filename) else st.fs
  (true, { collection := col, python_files := pf, fs := fs2 })

/-- `list_documents` (rag_pipeline.py lines 386-417), restricted to the
reported filenames: the distinct sources present in the collection metadata
that still exist on disk.  (The size/type/processed fields of each
`DocumentInfo` are read off the filesystem stat and carry no claim-relevant
content; the iteration order of the Python `set` is abstracted to first
occurrence order.) -/
def list_documents (st : PipelineState) : List String :=
  ((st.collection.map (fun e => e.metadata.source)).dedup).filter
    (fun s => st.fs.contains s)

/-- One inner result list of a chroma `query` call: documents, metadatas and
distances, index-aligned and ranked most similar first. -/
structure QueryResult where
  documents : List String
  metadatas : List DocMeta
  distances : List ℚ
deriving DecidableEq

/-- A generation-service HTTP response: status code and extracted message
content (`result['choices'][0]['message']['content']`). -/
structure GenResp where
  status : Nat
  content : String
deriving DecidableEq

/-- The dict returned by `process_query` (rag_pipeline.py lines 197-211). -/
structure QueryResponse where
  answer : String
  sources : List String
  context_used : Bool
  accuracy_percentage : ℚ
deriving DecidableEq

/-- Python `max` on a nonempty list (the sole use site guards emptiness). -/
def maxQ : List ℚ → ℚ
  | [] => 0
  | x :: xs => xs.foldl max x

/-- Python `min` on a nonempty list. -/
def minQ : List ℚ → ℚ
  | [] => 0
  | x :: xs => xs.foldl min x

/-- Python `round(x, 1)`: one-decimal rounding.  Midpoint behavior (python
rounds half to even on the underlying binary float) is abstracted to
round-half-up; the two agree at every non-midpoint value. -/
def round1 (x : ℚ) : ℚ := (⌊10 * x + 1 / 2⌋ : ℚ) / 10

/-- The raw accuracy score (rag_pipeline.py lines 181-189 and 277-281):
`max(1 - d for d in distances) * 100` when the distance list is nonempty,
otherwise the initial `0.0`.  Note the source applies no lower clamp. -/
def accuracy_raw (distances : List ℚ) : ℚ :=
  match distances with
  | [] => 0
  | _ :: _ => maxQ (distances.map (fun d => 1 - d)) * 100

/-- The context string of `process_query` (rag_pipeline.py line 192): the top
3 retrieved documents joined by a blank line. -/
def context_text (docs : List String) : String :=
  String.intercalate "\n\n" (docs.take 3)

/-- `_generate_response` (rag_pipeline.py lines 213-249): status 200 yields
the message content, any other status the fixed service-trouble string, and
an exception from the HTTP call is caught here and converted into the fixed
generation-error string.  This function never raises. -/
def generate_response (resp : Except PipeErr GenResp) : String :=
  match resp with
  | .ok r =>
      if r.status = 200 then r.content
      else "I\x27m having trouble accessing the AI model right now. Please try again later."
  | .error _ => "I encountered an error while generating a response."

/-- The catch-all response of `process_query` (rag_pipeline.py lines 206-211). -/
def errorResponse : QueryResponse :=
  { answer := "I apologize, but I encountered an error processing your request.",
    sources := [], context_used := false, accuracy_percentage := 0 }

/-- `process_query` (rag_pipeline.py lines 166-211).  `embed` is the query
embedding outcome, `qf` the vector-store query, `gen` the generation-service
call applied to the assembled context (the fixed prompt text around it is
dropped).  The top-level try/except converts an embedding or vector-store
exception into `errorResponse`; `list(set(sources))` is modelled as `dedup`. -/
def process_query (embed : Except PipeErr Vec) (qf : Vec → Except PipeErr QueryResult)
    (gen : String → Except PipeErr GenResp) : QueryResponse :=
  match embed with
  | .error _ => errorResponse
  | .ok v =>
    match qf v with
    | .error _ => errorResponse
    | .ok results =>
      { answer := generate_response (gen (context_text results.documents)),
        sources := (results.metadatas.map (fun m => m.source)).dedup,
        context_used := !results.documents.isEmpty,
        accuracy_percentage := round1 (accuracy_raw results.distances) }

/-- The dict returned by `generate_test_case` (rag_pipeline.py lines 320-340). -/
structure TestCaseResponse where
  test_case : String
  accuracy_percentage : ℚ
  sources_used : Nat
deriving DecidableEq

/-- Python dict lookup `d.get(k)` on an association list. -/
def lookupKey (m : List (String × PyInfo)) (k : String) : Option PyInfo :=
  match m with
  | [] => none
  | p :: ps => if p.1 = k then some p.2 else lookupKey ps k

/-- The per-metadata piece of the `python_context` block of
`generate_test_case` (rag_pipeline.py lines 264-275); the Python list
representation inside the f-strings is abstracted to comma separation. -/
def pyExcerpt (pf : List (String × PyInfo)) (m : DocMeta) : String :=
  if m.file_type = "python" then
    match lookupKey pf m.source with
    | some info =>
        "\n\nPython file structure from " ++ m.source ++ ":\n" ++
        "Classes: " ++ String.intercalate ", " info.code_structure.classes ++ "\n" ++
        "Functions: " ++ String.intercalate ", " info.code_structure.functions ++ "\n" ++
        "Key imports: " ++ String.intercalate ", " (info.code_structure.imports.take 5) ++ "\n" ++
        "Comments: " ++ String.intercalate ", " (info.code_structure.comments.take 3)
    | none => ""
  else ""

/-- The variable part of the prompt assembled by `generate_test_case`: the
documentation context (all retrieved documents joined by a blank line)
followed by the python context block. -/
def tc_prompt (pf : List (String × PyInfo)) (qr : QueryResult) : String :=
  String.intercalate "\n\n" qr.documents ++ "\n" ++
    String.join (qr.metadatas.map (pyExcerpt pf))

/-- The catch-all result of `generate_test_case` (rag_pipeline.py lines 336-340). -/
def errorTestCase : TestCaseResponse :=
  { test_case := "Error occurred while generating test case.",
    accuracy_percentage := 0, sources_used := 0 }

/-- `generate_test_case` (rag_pipeline.py lines 251-340).  Same oracle shape
as `process_query` plus the `python_files` cache.  On HTTP status 200 the
result carries the generated text, the rounded accuracy and the number of
retrieved documents; on any other status the source returns the fixed
fallback dict with accuracy `0.0` and `sources_used = 0`; an exception in
any step yields `errorTestCase`. -/
def generate_test_case (embed : Except PipeErr Vec) (qf : Vec → Except PipeErr QueryResult)
    (pf : List (String × PyInfo)) (gen : String → Except PipeErr GenResp) : TestCaseResponse :=
  match embed with
  | .error _ => errorTestCase
  | .ok v =>
    match qf v with
    | .error _ => errorTestCase
    | .ok results =>
      match gen (tc_prompt pf results) with
      | .ok r =>
          if r.status = 200 then
            { test_case := r.content,
              accuracy_percentage := round1 (accuracy_raw results.distances),
              sources_used := results.documents.length }
          else
            { test_case := "Unable to generate test case at this time.",
              accuracy_percentage := 0, sources_used := 0 }
      | .error _ => errorTestCase

/-- The dict returned by `execute_test_script` (rag_pipeline.py lines 361-384). -/
structure ExecutionResult where
  success : Bool
  stdout : String
  stderr : String
  return_code : Int
  execution_time : String
deriving DecidableEq

/-- Outcome of the `subprocess.run` call on the temporary file: normal
completion with exit code and captured streams, `subprocess.TimeoutExpired`
after 30 seconds, or any other exception after the temporary file was
created (e.g. a launch failure). -/
inductive RunOutcome where
  | completed (returncode : Int) (stdout stderr : String)
  | timedOut
  | failed (msg : String)
deriving DecidableEq

/-- Result of `execute_test_script` together with whether the `os.unlink`
call on the temporary file was reached on that path. -/
structure ExecOutcome where
  result : ExecutionResult
  tempFileRemoved : Bool
deriving DecidableEq

/-- `execute_test_script` (rag_pipeline.py lines 342-384).  The source calls
`os.unlink` only on the straight-line path after a normal `subprocess.run`
return; the `except subprocess.TimeoutExpired` and generic `except` branches
return their fallback dicts without reaching it. -/
def execute_test_script (run : RunOutcome) : ExecOutcome :=
  match run with
  | .completed rc out err =>
      { result :=
          { success := rc == 0, stdout := out, stderr := err,
            return_code := rc, execution_time := "< 30s" },
        tempFileRemoved := true }
  | .timedOut =>
      { result :=
          { success := false, stdout := "",
            stderr := "Test execution timed out after 30 seconds",
            return_code := -1, execution_time := "30s (timeout)" },
        tempFileRemoved := false }
  | .failed msg =>
      { result :=
          { success := false, stdout := "",
            stderr := "Execution error: " ++ msg,
            return_code := -1, execution_time := "N/A" },
        tempFileRemoved := false }

/-- Modelled from the spec: the Chunker (§4.1) is implemented in the source
by the external `RecursiveCharacterTextSplitter` from langchain, whose code
is not part of this repository; §4.1 specifies `split(text, max_size,
overlap)` as a sliding window producing size-bounded chunks with exactly
`overlap` shared characters at each boundary.  Each step keeps the last
`overlap` characters and advances by `maxSize - overlap`. -/
def splitChunks (maxSize overlap : Nat) (text : List Char) : List (List Char) :=
  if _h1 : maxSize ≤ overlap then []
  else if _h2 : text.length = 0 then []
  else if _h3 : text.length ≤ maxSize then [text]
  else text.take maxSize :: splitChunks maxSize overlap (text.drop (maxSize - overlap))
termination_by text.length
decreasing_by
  simp only [List.length_drop]
  omega

/-- Configuration errors of the Chunker (§7 taxonomy). -/
inductive ChunkError where
  | configError
deriving DecidableEq

/-- Modelled from the spec: the Chunker contract of §4.1 — `overlap >=
max_size` is rejected with `ConfigError` before any splitting work occurs;
otherwise the window split runs. -/
def split (text : List Char) (maxSize overlap : Nat) : Except ChunkError (List (List Char)) :=
  if maxSize ≤ overlap then .error .configError
  else .ok (splitChunks maxSize overlap text)

/-- Reconstruction of the original text from chunks: the first chunk
followed by every later chunk with its leading `overlap` characters
removed. -/
def joinChunks (overlap : Nat) : List (List Char) → List Char
  | [] => []
  | c :: rest => c ++ (rest.map (List.drop overlap)).flatten

/-- Boundary check for a chunk sequence: every consecutive pair shares
exactly `overlap` characters — the last `overlap` characters of the earlier
(full, length `maxSize`) chunk are the first `overlap` characters of the
later one, which has at least `overlap` characters. -/
def chainOverlapB (maxSize overlap : Nat) : List (List Char) → Bool
  | [] => true
  | [_] => true
  | a :: b :: rest =>
      (a.drop (maxSize - overlap) == b.take overlap) &&
      decide (overlap ≤ b.length) &&
      chainOverlapB maxSize overlap (b :: rest)

/-- Concrete document metadata used in the closed instances below. -/
def exMetaA : DocMeta :=
  { source := "a.txt", chunk_id := 0, file_path := "docs/a.txt", file_type := "document" }

/-- A retrieval result whose single match has cosine distance 3/2 (cosine
distance ranges over [0, 2], so distances above 1 occur for anti-similar
vectors). -/
def qrFar : QueryResult :=
  { documents := ["alpha"], metadatas := [exMetaA], distances := [3/2] }

/-- A retrieval result whose single match has distance exactly 1. -/
def qrEdge : QueryResult :=
  { documents := ["alpha"], metadatas := [exMetaA], distances := [1] }

/-- A retrieval result whose single match has distance 1/2. -/
def qrHalf : QueryResult :=
  { documents := ["alpha"], metadatas := [exMetaA], distances := [1/2] }

/-- Vector-store oracle returning a fixed result. -/
def qfOf (qr : QueryResult) : Vec → Except PipeErr QueryResult := fun _ => .ok qr

/-- Vector-store oracle that raises. -/
def qfErr : Vec → Except PipeErr QueryResult := fun _ => .error .serviceErr

/-- Generation oracle answering with HTTP 200. -/
def genOk : String → Except PipeErr GenResp := fun _ => .ok { status := 200, content := "ok" }

/-- Generation oracle answering with HTTP 500. -/
def genBad : String → Except PipeErr GenResp := fun _ => .ok { status := 500, content := "" }

/-- Generation oracle whose HTTP call raises. -/
def genRaise : String → Except PipeErr GenResp := fun _ => .error .serviceErr

/-- Embedding oracle that always succeeds. -/
def embedOkC : String → Except PipeErr Vec := fun _ => .ok [1]

/-- Embedding oracle that always raises. -/
def embedFail : String → Except PipeErr Vec := fun _ => .error .serviceErr

/-- The empty pipeline state. -/
def st0 : PipelineState := { collection := [], python_files := [], fs := [] }

/-- A concrete ast extraction for the closed instances. -/
def astEx : AstInfo := { classes := [], functions := ["f"], imports := [] }

/-- The entries written for chunks `i, i+1, ...` of a file, in order. -/
def entriesFrom (file_path : String) (i : Nat) : List String → List Entry
  | [] => []
  | c :: rest => mkEntry file_path i c :: entriesFrom file_path (i + 1) rest

/-! Helper lemmas. -/

theorem round1_zero : round1 0 = 0 := by norm_num [round1]

theorem foldl_max_one_sub (xs : List ℚ) :
    ∀ a : ℚ, ((xs.map fun d => 1 - d).foldl max (1 - a)) = 1 - xs.foldl min a := by
  induction xs with
  | nil => intro a; simp
  | cons x xs ih =>
      intro a
      simp only [List.map_cons, List.foldl_cons]
      rw [max_sub_sub_left, ih]

theorem maxQ_one_sub (l : List ℚ) (h : l ≠ []) :
    maxQ (l.map fun d => 1 - d) = 1 - minQ l := by
  cases l with
  | nil => exact absurd rfl h
  | cons x xs =>
      simp only [maxQ, minQ, List.map_cons]
      exact foldl_max_one_sub xs x

/-- C2: the spec requires the temporary file to be removed on every exit
path of `execute_test_script`; the source only reaches `os.unlink` on the
normal-completion path, so a timed-out run returns the documented timeout
result but leaves the temporary file behind. -/
theorem C2_code_bug :
    (execute_test_script .timedOut).result.success = false ∧
    (execute_test_script .timedOut).result.return_code = -1 ∧
    (execute_test_script .timedOut).result.stderr =
      "Test execution timed out after 30 seconds" ∧
    (execute_test_script .timedOut).tempFileRemoved = false :=
  ⟨rfl, rfl, rfl, rfl⟩

/-- C10: when the subprocess completes within the timeout,
`execute_test_script` reports success exactly for exit code 0, and passes
the captured stdout, stderr and exit code through unchanged. -/
theorem C10_confirmed (rc : Int) (out err : String) :
    ((execute_test_script (.completed rc out err)).result.success = true ↔ rc = 0) ∧
    (execute_test_script (.completed rc out err)).result.stdout = out ∧
    (execute_test_script (.completed rc out err)).result.stderr = err ∧
    (execute_test_script (.completed rc out err)).result.return_code = rc ∧
    (execute_test_script (.completed rc out err)).tempFileRemoved = true := by
  refine ⟨?_, rfl, rfl, rfl, rfl⟩
  simp [execute_test_script]

/-- C5: chunking with `overlap >= max_size` is rejected with `ConfigError`
before any splitting work occurs. -/
theorem C5_confirmed (text : List Char) (maxSize overlap : Nat) (h : maxSize ≤ overlap) :
    split text maxSize overlap = .error .configError := by
  simp [split, h]

/-- C5 witness: the degenerate configuration `max_size = overlap = 2` is
rejected on a concrete input. -/
theorem C5_witness :
    (2 ≤ 2) ∧ split ['a'] 2 2 = Except.error ChunkError.configError :=
  ⟨by decide, C5_confirmed ['a'] 2 2 (by decide)⟩

/-- C1 counterexample: the claimed formula `max(0, 1 - min_distance) * 100`
and the range `[0, 100]` fail on the code.  With a single retrieved cosine
distance of 3/2 the source computes `(1 - 3/2) * 100 = -50` — negative,
below the claimed clamp at 0 — and with a single distance of exactly 1 the
confidence is `0.0` even though retrieval returned one match. -/
theorem C1_counterexample :
    (process_query (.ok [1]) (qfOf qrFar) genOk).accuracy_percentage = -50 ∧
    ¬ (0 ≤ (process_query (.ok [1]) (qfOf qrFar) genOk).accuracy_percentage) ∧
    (process_query (.ok [1]) (qfOf qrFar) genOk).accuracy_percentage ≠
      round1 (max 0 (1 - minQ qrFar.distances) * 100) ∧
    (process_query (.ok [1]) (qfOf qrEdge) genOk).accuracy_percentage = 0 ∧
    qrEdge.distances.length = 1 := by
  have h1 : (process_query (.ok [1]) (qfOf qrFar) genOk).accuracy_percentage = -50 := by
    norm_num [process_query, qfOf, genOk, qrFar, exMetaA, accuracy_raw, maxQ, round1]
  have h2 : round1 (max 0 (1 - minQ qrFar.distances) * 100) = 0 := by
    have hm : max (0 : ℚ) (1 - minQ qrFar.distances) = 0 := by
      rw [max_eq_left]
      norm_num [qrFar, minQ]
    rw [hm]
    norm_num [round1]
  refine ⟨h1, by rw [h1]; norm_num, by rw [h1, h2]; norm_num, ?_, rfl⟩
  norm_num [process_query, qfOf, genOk, qrEdge, exMetaA, accuracy_raw, maxQ, round1]

/-- C1 (amended): the confidence returned by `process_query` equals
`(1 - min_distance) * 100` rounded to one decimal — without the claimed
clamp at 0 — when at least one distance is retrieved, and `0.0` when
retrieval returns no distances. -/
theorem C1_corrected (v : Vec) (qf : Vec → Except PipeErr QueryResult)
    (gen : String → Except PipeErr GenResp) (qr : QueryResult) (hq : qf v = .ok qr) :
    (process_query (.ok v) qf gen).accuracy_percentage =
      if qr.distances = [] then (0 : ℚ) else round1 ((1 - minQ qr.distances) * 100) := by
  simp only [process_query, hq]
  cases hd : qr.distances with
  | nil => simp [accuracy_raw, round1_zero]
  | cons x xs =>
      rw [if_neg (by simp)]
      simp only [accuracy_raw]
      rw [maxQ_one_sub (x :: xs) (by simp)]

/-- C1 witness: the corrected formula evaluated at a concrete retrieval with
a single distance of 1/2. -/
theorem C1_witness :
    (process_query (.ok [1]) (qfOf qrHalf) genOk).accuracy_percentage =
      if qrHalf.distances = [] then (0 : ℚ) else round1 ((1 - minQ qrHalf.distances) * 100) :=
  C1_corrected [1] (qfOf qrHalf) genOk qrHalf rfl

/-- C6 counterexample: an exception raised during generation does not yield
the zero-confidence, no-sources response.  `requests.post` raising inside
`_generate_response` is caught there and converted into an error answer
string, after which `process_query` still returns the real sources, real
confidence and `context_used=true`. -/
theorem C6_counterexample :
    genRaise (context_text qrHalf.documents) = .error .serviceErr ∧
    (process_query (.ok [1]) (qfOf qrHalf) genRaise).answer =
      "I encountered an error while generating a response." ∧
    (process_query (.ok [1]) (qfOf qrHalf) genRaise).accuracy_percentage = 50 ∧
    (process_query (.ok [1]) (qfOf qrHalf) genRaise).sources = ["a.txt"] ∧
    (process_query (.ok [1]) (qfOf qrHalf) genRaise).context_used = true := by
  refine ⟨rfl, rfl, ?_, by decide, rfl⟩
  norm_num [process_query, qfOf, genRaise, qrHalf, exMetaA, accuracy_raw, maxQ, round1]

/-- C6 (amended): no exception ever propagates out of `process_query`; an
exception raised during embedding or during the vector-store query yields
the zero-confidence, no-sources, `context_used=false` generic-error
response, while an exception raised during generation is caught inside the
generation helper — the answer degrades to a fixed error string but the
retrieval metadata (sources, confidence, context flag) is returned
normally. -/
theorem C6_corrected :
    (∀ (e : PipeErr) (qf : Vec → Except PipeErr QueryResult)
        (gen : String → Except PipeErr GenResp),
      process_query (.error e) qf gen = errorResponse) ∧
    (∀ (v : Vec) (qf : Vec → Except PipeErr QueryResult)
        (gen : String → Except PipeErr GenResp) (e : PipeErr),
      qf v = .error e → process_query (.ok v) qf gen = errorResponse) ∧
    (∀ (v : Vec) (qf : Vec → Except PipeErr QueryResult)
        (gen : String → Except PipeErr GenResp) (qr : QueryResult) (e : PipeErr),
      qf v = .ok qr → gen (context_text qr.documents) = .error e →
      process_query (.ok v) qf gen =
        { answer := "I encountered an error while generating a response.",
          sources := (qr.metadatas.map (fun m => m.source)).dedup,
          context_used := !qr.documents.isEmpty,
          accuracy_percentage := round1 (accuracy_raw qr.distances) }) := by
  refine ⟨fun e qf gen => rfl, fun v qf gen e hq => ?_, fun v qf gen qr e hq hg => ?_⟩
  · simp [process_query, hq]
  · simp [process_query, hq, hg, generate_response]

/-- C6 witness: the three branches of the amended statement at concrete
inputs — embedding failure, vector-store failure, and generation failure
with a nonempty retrieval. -/
theorem C6_witness :
    process_query (.error .serviceErr) (qfOf qrHalf) genOk = errorResponse ∧
    process_query (.ok [1]) qfErr genOk = errorResponse ∧
    process_query (.ok [1]) (qfOf qrHalf) genRaise =
      { answer := "I encountered an error while generating a response.",
        sources := (qrHalf.metadatas.map (fun m => m.source)).dedup,
        context_used := !qrHalf.documents.isEmpty,
        accuracy_percentage := round1 (accuracy_raw qrHalf.distances) } :=
  ⟨C6_corrected.1 .serviceErr (qfOf qrHalf) genOk,
   C6_corrected.2.1 [1] qfErr genOk .serviceErr rfl,
   C6_corrected.2.2 [1] (qfOf qrHalf) genRaise qrHalf .serviceErr rfl rfl⟩

/-- C4 counterexample: on a non-success generation status,
`generate_test_case` does not carry the retrieval metadata.  With one
retrieved document at distance 1/2 and an HTTP 500 answer, the result has
`accuracy_percentage = 0` and `sources_used = 0`, while `process_query`
under the same retrieval and the same failing generation still reports
confidence 50 — so the behavior is not the fail-soft behavior of
`process_query`. -/
theorem C4_counterexample :
    (generate_test_case (.ok [1]) (qfOf qrHalf) [] genBad).test_case =
      "Unable to generate test case at this time." ∧
    (generate_test_case (.ok [1]) (qfOf qrHalf) [] genBad).accuracy_percentage = 0 ∧
    (generate_test_case (.ok [1]) (qfOf qrHalf) [] genBad).sources_used = 0 ∧
    (process_query (.ok [1]) (qfOf qrHalf) genBad).accuracy_percentage = 50 ∧
    qrHalf.documents.length = 1 ∧
    (generate_test_case (.ok [1]) (qfOf qrHalf) [] genBad).accuracy_percentage ≠
      (process_query (.ok [1]) (qfOf qrHalf) genBad).accuracy_percentage ∧
    (generate_test_case (.ok [1]) (qfOf qrHalf) [] genBad).sources_used ≠
      qrHalf.documents.length := by
  have hg : (generate_test_case (.ok [1]) (qfOf qrHalf) [] genBad) =
      { test_case := "Unable to generate test case at this time.",
        accuracy_percentage := 0, sources_used := 0 } := by
    simp [generate_test_case, qfOf, genBad]
  have hp : (process_query (.ok [1]) (qfOf qrHalf) genBad).accuracy_percentage = 50 := by
    norm_num [process_query, qfOf, genBad, qrHalf, exMetaA, accuracy_raw, maxQ, round1]
  refine ⟨by rw [hg], by rw [hg], by rw [hg], hp, rfl, ?_, ?_⟩
  · rw [hg, hp]; norm_num
  · rw [hg]; norm_num [qrHalf]

/-- C4 (amended): when the generation service returns a non-success status,
`generate_test_case` degrades to the fixed fallback string and — unlike
`process_query` — discards the retrieval metadata computed before
generation: the result always carries `accuracy_percentage = 0.0` and
`sources_used = 0`. -/
theorem C4_corrected (v : Vec) (qf : Vec → Except PipeErr QueryResult)
    (pf : List (String × PyInfo)) (gen : String → Except PipeErr GenResp)
    (qr : QueryResult) (r : GenResp) (hq : qf v = .ok qr)
    (hg : gen (tc_prompt pf qr) = .ok r) (hs : r.status ≠ 200) :
    generate_test_case (.ok v) qf pf gen =
      { test_case := "Unable to generate test case at this time.",
        accuracy_percentage := 0, sources_used := 0 } := by
  simp [generate_test_case, hq, hg, hs]

/-- C4 witness: the amended statement at a concrete failing generation. -/
theorem C4_witness :
    generate_test_case (.ok [1]) (qfOf qrHalf) [] genBad =
      { test_case := "Unable to generate test case at this time.",
        accuracy_percentage := 0, sources_used := 0 } :=
  C4_corrected [1] (qfOf qrHalf) [] genBad qrHalf { status := 500, content := "" }
    rfl rfl (by decide)

/-- C7: `delete_document` returns `true`, leaves no entry whose metadata
source is the deleted filename, leaves no cache binding for it, removes the
file from the documents directory, and afterwards `list_documents` does not
report the filename.  All of this holds for every starting state, including
states in which nothing matches the filename (idempotent no-op). -/
theorem C7_confirmed (st : PipelineState) (f : String) :
    (delete_document st f).1 = true ∧
    (∀ e ∈ (delete_document st f).2.collection, e.metadata.source ≠ f) ∧
    (∀ p ∈ (delete_document st f).2.python_files, p.1 ≠ f) ∧
    f ∉ (delete_document st f).2.fs ∧
    f ∉ list_documents (delete_document st f).2 := by
  have hfs : f ∉ (delete_document st f).2.fs := by
    intro hf
    simp only [delete_document] at hf
    by_cases h : st.fs.contains f
    · rw [if_pos h] at hf
      rw [List.mem_filter] at hf
      simp at hf
    · rw [if_neg h] at hf
      simp [List.contains, List.elem_iff] at h
      exact h hf
  refine ⟨rfl, ?_, ?_, hfs, ?_⟩
  · intro e he hsrc
    simp only [delete_document] at he
    rw [List.mem_filter] at he
    obtain ⟨hmem, hpred⟩ := he
    have hid : e.id ∈ ((st.collection.filter
        (fun x => x.metadata.source == f)).map Entry.id) :=
      List.mem_map_of_mem Entry.id (List.mem_filter.2 ⟨hmem, by simp [hsrc]⟩)
    simp [List.contains, List.elem_iff, hid] at hpred
  · intro p hp hpk
    simp only [delete_document] at hp
    by_cases h : st.python_files.any (fun q => q.1 == f)
    · rw [if_pos h] at hp
      unfold eraseKey at hp
      rw [List.mem_filter] at hp
      simp [hpk] at hp
    · rw [if_neg h] at hp
      rw [List.any_eq_true] at h
      exact h ⟨p, hp, by simp [hpk]⟩
  · intro hf
    unfold list_documents at hf
    rw [List.mem_filter] at hf
    obtain ⟨_, hc⟩ := hf
    simp [List.contains, List.elem_iff] at hc
    exact hfs hc

/-- Projection of `add_document` on the `python_files` cache: it is updated
by `_process_python_file` (for a `.py` path with a successful load) before
the chunk loop runs, and the chunk loop never touches it. -/
theorem add_document_python_files (st : PipelineState) (f : String)
    (docs : List String) (content : String) (parse : Except PipeErr AstInfo)
    (chunks : List String) (embed : String → Except PipeErr Vec) :
    (add_document st f (.ok docs) content parse chunks embed).2.python_files =
      if strEnds f ".py" then process_python_file st.python_files f content parse
      else st.python_files := by
  simp only [add_document]

/-- Key membership after a dict assignment. -/
theorem setKey_mem_key (k : String) (v : PyInfo) (m : List (String × PyInfo)) :
    ∃ p ∈ setKey k v m, p.1 = k := by
  induction m with
  | nil => exact ⟨(k, v), by simp [setKey]⟩
  | cons q qs ih =>
      by_cases h : q.1 = k
      · exact ⟨(k, v), by simp [setKey, h]⟩
      · obtain ⟨p, hp, hpk⟩ := ih
        refine ⟨p, ?_, hpk⟩
        simp only [setKey, if_neg h]
        exact List.mem_cons_of_mem q hp

/-- C9: for a `.py` file whose text parses, `add_document` stores the
extracted structure in the `python_files` cache keyed by basename before the
chunk/embedding loop, so the cache contains the entry in the final state for
every embedding oracle — in particular also when a failing embedding makes
`add_document` return `false`. -/
theorem C9_confirmed (st : PipelineState) (f : String) (docs : List String)
    (content : String) (t : AstInfo) (chunks : List String)
    (embed : String → Except PipeErr Vec) (hpy : strEnds f ".py" = true) :
    ∃ p ∈ (add_document st f (.ok docs) content (.ok t) chunks embed).2.python_files,
      p.1 = basename f := by
  rw [add_document_python_files, if_pos hpy]
  simp only [process_python_file]
  exact setKey_mem_key (basename f) _ st.python_files

/-- C9 witness: a concrete failed ingestion — the embedding oracle raises on
the single chunk, `add_document` returns `false`, and the cache nevertheless
holds the entry for the file. -/
theorem C9_witness :
    (strEnds "t.py" ".py" = true) ∧
    (add_document st0 "t.py" (.ok ["x = 1"]) "x = 1" (.ok astEx) ["x = 1"] embedFail).1
      = false ∧
    ∃ p ∈ (add_document st0 "t.py" (.ok ["x = 1"]) "x = 1" (.ok astEx) ["x = 1"]
        embedFail).2.python_files, p.1 = basename "t.py" :=
  ⟨by decide, rfl,
   C9_confirmed st0 "t.py" ["x = 1"] "x = 1" astEx ["x = 1"] embedFail (by decide)⟩

/-- Every chunk produced by the window split is at most `maxSize` long. -/
theorem splitChunks_length_le (maxSize overlap : Nat) (text : List Char) :
    ∀ c ∈ splitChunks maxSize overlap text, c.length ≤ maxSize := by
  unfold splitChunks
  split
  · intro c hc; simp at hc
  · split
    · intro c hc; simp at hc
    · split
      · next h3 =>
          intro c hc
          rw [List.mem_singleton] at hc
          subst hc
          exact h3
      · intro c hc
        rcases List.mem_cons.1 hc with hcc | hcc
        · subst hcc
          exact List.length_take_le maxSize text
        · exact splitChunks_length_le maxSize overlap (text.drop (maxSize - overlap)) c hcc
termination_by text.length
decreasing_by simp only [List.length_drop]; omega

/-- A nonempty text splits into a sequence starting with its `maxSize`-prefix. -/
theorem splitChunks_head (maxSize overlap : Nat) (text : List Char)
    (h : ¬ maxSize ≤ overlap) (hne : text ≠ []) :
    ∃ rest, splitChunks maxSize overlap text = text.take maxSize :: rest := by
  unfold splitChunks
  rw [dif_neg h]
  split
  · next h2 => exact absurd (List.length_eq_zero.1 h2) hne
  · split
    · next h3 => exact ⟨[], by rw [List.take_of_length_le h3]⟩
    · exact ⟨_, rfl⟩

/-- Round trip: the first chunk followed by the later chunks with their
leading `overlap` characters removed reassembles the original text. -/
theorem joinChunks_splitChunks (maxSize overlap : Nat) (h : ¬ maxSize ≤ overlap)
    (text : List Char) :
    joinChunks overlap (splitChunks maxSize overlap text) = text := by
  unfold splitChunks
  rw [dif_neg h]
  split
  · next h2 => simp [joinChunks, (List.length_eq_zero.1 h2).symm]
  · split
    · simp [joinChunks]
    · next h2 h3 =>
        have ih := joinChunks_splitChunks maxSize overlap h (text.drop (maxSize - overlap))
        have hD : text.drop (maxSize - overlap) ≠ [] := by
          intro hnil
          have := congrArg List.length hnil
          simp only [List.length_drop, List.length_nil] at this
          omega
        obtain ⟨rest, hS⟩ := splitChunks_head maxSize overlap
          (text.drop (maxSize - overlap)) h hD
        rw [hS] at ih ⊢
        simp only [joinChunks, List.map_cons, List.flatten_cons] at ih ⊢
        have hlenA : overlap ≤ ((text.drop (maxSize - overlap)).take maxSize).length := by
          simp only [List.length_take, List.length_drop]
          omega
        rw [← List.drop_append_of_le_length hlenA, ih, List.drop_drop]
        have hms : maxSize - overlap + overlap = maxSize := by omega
        rw [hms, List.take_append_drop]
termination_by text.length
decreasing_by simp only [List.length_drop]; omega

/-- Boundary property: consecutive chunks of the window split share exactly
`overlap` characters. -/
theorem chainOverlapB_splitChunks (maxSize overlap : Nat) (h : ¬ maxSize ≤ overlap)
    (text : List Char) :
    chainOverlapB maxSize overlap (splitChunks maxSize overlap text) = true := by
  unfold splitChunks
  rw [dif_neg h]
  split
  · rfl
  · split
    · rfl
    · next h2 h3 =>
        have ih := chainOverlapB_splitChunks maxSize overlap h
          (text.drop (maxSize - overlap))
        have hD : text.drop (maxSize - overlap) ≠ [] := by
          intro hnil
          have := congrArg List.length hnil
          simp only [List.length_drop, List.length_nil] at this
          omega
        obtain ⟨rest, hS⟩ := splitChunks_head maxSize overlap
          (text.drop (maxSize - overlap)) h hD
        rw [hS] at ih ⊢
        simp only [chainOverlapB, Bool.and_eq_true, beq_iff_eq, decide_eq_true_eq]
        refine ⟨⟨?_, ?_⟩, ih⟩
        · rw [List.drop_take, List.take_take]
          congr 1
          omega
        · simp only [List.length_take, List.length_drop]
          omega
termination_by text.length
decreasing_by simp only [List.length_drop]; omega

/-- C8: for every chunking input with a valid configuration, every chunk is
at most `max_size` long, consecutive chunks overlap by exactly `overlap`
characters, and dropping the declared overlap from every chunk after the
first reconstructs the original text losslessly. -/
theorem C8_confirmed (text : List Char) (maxSize overlap : Nat) (h : overlap < maxSize) :
    (∀ c ∈ splitChunks maxSize overlap text, c.length ≤ maxSize) ∧
    chainOverlapB maxSize overlap (splitChunks maxSize overlap text) = true ∧
    joinChunks overlap (splitChunks maxSize overlap text) = text :=
  ⟨splitChunks_length_le maxSize overlap text,
   chainOverlapB_splitChunks maxSize overlap (by omega) text,
   joinChunks_splitChunks maxSize overlap (by omega) text⟩

/-- C8 witness: the three chunking properties on a concrete 5-character
text with `max_size = 3` and `overlap = 1`. -/
theorem C8_witness :
    (1 < 3) ∧
    ((∀ c ∈ splitChunks 3 1 ['a', 'b', 'c', 'd', 'e'], c.length ≤ 3) ∧
     chainOverlapB 3 1 (splitChunks 3 1 ['a', 'b', 'c', 'd', 'e']) = true ∧
     joinChunks 1 (splitChunks 3 1 ['a', 'b', 'c', 'd', 'e']) = ['a', 'b', 'c', 'd', 'e']) :=
  ⟨by decide, C8_confirmed ['a', 'b', 'c', 'd', 'e'] 3 1 (by decide)⟩

/-- Upserting a fresh id appends the entry at the end. -/
theorem upsert_not_mem (e : Entry) (col : List Entry) (h : e.id ∉ col.map Entry.id) :
    upsert e col = col ++ [e] := by
  induction col with
  | nil => rfl
  | cons x xs ih =>
      rw [List.map_cons, List.mem_cons] at h
      push_neg at h
      obtain ⟨h1, h2⟩ := h
      have hne : ¬ x.id = e.id := fun hx => h1 hx.symm
      simp only [upsert, if_neg hne, List.cons_append, ih h2]

/-- Upserting an id held by one entry (and absent before it) replaces that
entry in place. -/
theorem upsert_replace (e x : Entry) (col0 tail : List Entry) (hid : x.id = e.id)
    (h0 : e.id ∉ col0.map Entry.id) :
    upsert e (col0 ++ x :: tail) = col0 ++ e :: tail := by
  induction col0 with
  | nil => simp only [List.nil_append, upsert, if_pos hid]
  | cons y ys ih =>
      rw [List.map_cons, List.mem_cons] at h0
      push_neg at h0
      obtain ⟨h1, h2⟩ := h0
      have hne : ¬ y.id = e.id := fun hy => h1 hy.symm
      simp only [List.cons_append, upsert, if_neg hne, List.append_eq, ih h2]

/-- Every id written by `entriesFrom f i _` has base `basename f` and an
index at least `i`. -/
theorem entriesFrom_id_base_idx (f : String) :
    ∀ (chunks : List String) (i : Nat) (a : DocId),
      a ∈ (entriesFrom f i chunks).map Entry.id → a.base = basename f ∧ i ≤ a.idx := by
  intro chunks
  induction chunks with
  | nil => intro i a ha; simp [entriesFrom] at ha
  | cons c rest ih =>
      intro i a ha
      simp only [entriesFrom, List.map_cons, List.mem_cons] at ha
      rcases ha with ha | ha
      · subst ha; exact ⟨rfl, le_refl _⟩
      · obtain ⟨hb, hi⟩ := ih (i + 1) a ha
        exact ⟨hb, by omega⟩

/-- The ids written by one ingestion run are pairwise distinct. -/
theorem entriesFrom_ids_nodup (f : String) :
    ∀ (chunks : List String) (i : Nat), ((entriesFrom f i chunks).map Entry.id).Nodup := by
  intro chunks
  induction chunks with
  | nil => intro i; simp [entriesFrom]
  | cons c rest ih =>
      intro i
      simp only [entriesFrom, List.map_cons, List.nodup_cons]
      refine ⟨?_, ih (i + 1)⟩
      intro hmem
      obtain ⟨hb, hi⟩ := entriesFrom_id_base_idx f rest (i + 1) _ hmem
      have hidx : (mkEntry f i c).id.idx = i := rfl
      omega

/-- When every id of the file is fresh, the chunk loop appends the run's
entries in order and reports success. -/
theorem addChunks_fresh (f : String) (embed : String → Except PipeErr Vec)
    (hemb : ∀ c, ∃ w, embed c = .ok w) :
    ∀ (chunks : List String) (col : List Entry) (i : Nat),
      (∀ j, i ≤ j → DocId.mk (basename f) j ∉ col.map Entry.id) →
      addChunks f embed col i chunks = (true, col ++ entriesFrom f i chunks) := by
  intro chunks
  induction chunks with
  | nil => intro col i hf; simp [addChunks, entriesFrom]
  | cons c rest ih =>
      intro col i hf
      obtain ⟨w, hw⟩ := hemb c
      simp only [addChunks, hw]
      have hup : upsert (mkEntry f i c) col = col ++ [mkEntry f i c] :=
        upsert_not_mem _ _ (hf i (le_refl i))
      have hf2 : ∀ j, i + 1 ≤ j →
          DocId.mk (basename f) j ∉ (col ++ [mkEntry f i c]).map Entry.id := by
        intro j hj hmem
        rw [List.map_append, List.mem_append] at hmem
        rcases hmem with hm | hm
        · exact hf j (by omega) hm
        · rw [List.map_singleton, List.mem_singleton] at hm
          have := congrArg DocId.idx hm
          simp only [mkEntry] at this
          omega
      rw [hup, ih (col ++ [mkEntry f i c]) (i + 1) hf2]
      simp [entriesFrom]

/-- Re-running the chunk loop over a collection that already holds a full
run for the same file (with fresh ids elsewhere) replaces that run in place:
the result is as if only the second run had been inserted. -/
theorem addChunks_overwrite (f : String) (embed : String → Except PipeErr Vec)
    (hemb : ∀ c, ∃ w, embed c = .ok w) :
    ∀ (chunks1 chunks2 : List String) (col0 : List Entry) (i : Nat),
      chunks1.length = chunks2.length →
      (∀ j, i ≤ j → DocId.mk (basename f) j ∉ col0.map Entry.id) →
      addChunks f embed (col0 ++ entriesFrom f i chunks1) i chunks2 =
        (true, col0 ++ entriesFrom f i chunks2) := by
  intro chunks1
  induction chunks1 with
  | nil =>
      intro chunks2 col0 i hlen hf
      have h2 : chunks2 = [] := by
        cases chunks2 with
        | nil => rfl
        | cons _ _ => simp at hlen
      subst h2
      simp [addChunks, entriesFrom]
  | cons c1 r1 ih =>
      intro chunks2 col0 i hlen hf
      cases chunks2 with
      | nil => simp at hlen
      | cons c2 r2 =>
          obtain ⟨w, hw⟩ := hemb c2
          simp only [entriesFrom, addChunks, hw]
          have hrep : upsert (mkEntry f i c2)
              (col0 ++ mkEntry f i c1 :: entriesFrom f (i + 1) r1) =
              col0 ++ mkEntry f i c2 :: entriesFrom f (i + 1) r1 :=
            upsert_replace _ _ _ _ rfl (hf i (le_refl i))
          have hca : col0 ++ mkEntry f i c2 :: entriesFrom f (i + 1) r1 =
              (col0 ++ [mkEntry f i c2]) ++ entriesFrom f (i + 1) r1 := by simp
          have hf2 : ∀ j, i + 1 ≤ j →
              DocId.mk (basename f) j ∉ (col0 ++ [mkEntry f i c2]).map Entry.id := by
            intro j hj hmem
            rw [List.map_append, List.mem_append] at hmem
            rcases hmem with hm | hm
            · exact hf j (by omega) hm
            · rw [List.map_singleton, List.mem_singleton] at hm
              have := congrArg DocId.idx hm
              simp only [mkEntry] at this
              omega
          rw [hrep, hca, ih r2 (col0 ++ [mkEntry f i c2]) (i + 1) (by simpa using hlen) hf2]
          simp

/-- Projection of `add_document` on the collection: it is exactly the chunk
loop run over the starting collection. -/
theorem add_document_collection (st : PipelineState) (f : String) (docs : List String)
    (content : String) (parse : Except PipeErr AstInfo) (chunks : List String)
    (embed : String → Except PipeErr Vec) :
    (add_document st f (.ok docs) content parse chunks embed).2.collection =
      (addChunks f embed st.collection 0 chunks).2 := by
  simp only [add_document]

/-- C3: re-ingesting the same filename with the same chunk count fully
overwrites the previous run's entries by identity — the collection equals
the one produced by a single ingestion of the second run, and the ids stay
pairwise distinct (no duplicate basename_index identity). -/
theorem C3_confirmed (st : PipelineState) (f : String) (docs : List String)
    (content : String) (parse : Except PipeErr AstInfo) (chunks1 chunks2 : List String)
    (embed : String → Except PipeErr Vec)
    (hemb : ∀ c, ∃ w, embed c = .ok w)
    (hlen : chunks1.length = chunks2.length)
    (hfresh : ∀ j, DocId.mk (basename f) j ∉ st.collection.map Entry.id)
    (hnodup : (st.collection.map Entry.id).Nodup) :
    (add_document (add_document st f (.ok docs) content parse chunks1 embed).2
        f (.ok docs) content parse chunks2 embed).2.collection =
      (add_document st f (.ok docs) content parse chunks2 embed).2.collection ∧
    ((add_document (add_document st f (.ok docs) content parse chunks1 embed).2
        f (.ok docs) content parse chunks2 embed).2.collection.map Entry.id).Nodup := by
  have h1 : (add_document st f (.ok docs) content parse chunks1 embed).2.collection =
      st.collection ++ entriesFrom f 0 chunks1 := by
    rw [add_document_collection,
      addChunks_fresh f embed hemb chunks1 st.collection 0 (fun j _ => hfresh j)]
  have h2 : (add_document (add_document st f (.ok docs) content parse chunks1 embed).2
      f (.ok docs) content parse chunks2 embed).2.collection =
      st.collection ++ entriesFrom f 0 chunks2 := by
    rw [add_document_collection, h1,
      addChunks_overwrite f embed hemb chunks1 chunks2 st.collection 0 hlen
        (fun j _ => hfresh j)]
  have h3 : (add_document st f (.ok docs) content parse chunks2 embed).2.collection =
      st.collection ++ entriesFrom f 0 chunks2 := by
    rw [add_document_collection,
      addChunks_fresh f embed hemb chunks2 st.collection 0 (fun j _ => hfresh j)]
  refine ⟨by rw [h2, h3], ?_⟩
  rw [h2, List.map_append]
  refine List.Nodup.append hnodup (entriesFrom_ids_nodup f chunks2 0) ?_
  intro a ha hb
  obtain ⟨hbase, _⟩ := entriesFrom_id_base_idx f chunks2 0 a hb
  rcases a with ⟨abase, aidx⟩
  simp only at hbase
  subst hbase
  exact hfresh aidx ha

/-- C3 witness: two successful two-chunk ingests of the same file into the
empty state; the second run's collection equals a single second ingest and
its ids are distinct. -/
theorem C3_witness :
    (∀ c, ∃ w, embedOkC c = Except.ok w) ∧
    ((["x", "y"] : List String).length = (["u", "v"] : List String).length) ∧
    (∀ j, DocId.mk (basename "doc.txt") j ∉ st0.collection.map Entry.id) ∧
    ((add_document (add_document st0 "doc.txt" (.ok ["t"]) "" (.error .parseErr)
          ["x", "y"] embedOkC).2
        "doc.txt" (.ok ["t"]) "" (.error .parseErr) ["u", "v"] embedOkC).2.collection =
      (add_document st0 "doc.txt" (.ok ["t"]) "" (.error .parseErr)
          ["u", "v"] embedOkC).2.collection ∧
     ((add_document (add_document st0 "doc.txt" (.ok ["t"]) "" (.error .parseErr)
          ["x", "y"] embedOkC).2
        "doc.txt" (.ok ["t"]) "" (.error .parseErr)
          ["u", "v"] embedOkC).2.collection.map Entry.id).Nodup) :=
  ⟨fun _c => ⟨[1], rfl⟩, rfl, fun _j => by simp [st0],
   C3_confirmed st0 "doc.txt" ["t"] "" (.error .parseErr) ["x", "y"] ["u", "v"] embedOkC
     (fun _c => ⟨[1], rfl⟩) rfl (fun _j => by simp [st0]) (by simp [st0])⟩
